import Mathlib

/-!
Verification of the keithleygui coordination logic: the fixed-step
voltage-sweep construction (measurements/iv.py), the busy/idle/disconnected
connection poller (main.py), the one-shot measurement worker thread, the
Run-button handler with its guards, the SMU combo-box exclusion handlers,
and the drain-voltage string parsing.  Machine reals (numpy float64 values
flowing through the spin boxes) are embedded as exact rationals; Python
exceptions are embedded as `Option`/`Except` failure values.
-/

namespace Keithleygui

/-! ### Sweep construction (measurements/iv.py, `Measurement.mfunction`)

    step = np.sign(params['VStop'] - params['VStart']) * abs(params['VStep'])
    sweeplist = np.arange(params['VStart'], params['VStop'] + step, step)
-/

/-- `np.sign` on a scalar: 1 for positive, -1 for negative, 0 for zero. -/
def npSign (x : ℚ) : ℚ :=
  if 0 < x then 1 else if x < 0 then -1 else 0

/-- The number of elements `np.arange(start, stop, step)` produces for a
nonzero step: `ceil((stop - start) / step)`, clamped at zero. -/
def arangeLength (start stop step : ℚ) : ℕ :=
  (⌈(stop - start) / step⌉).toNat

/-- `np.arange(start, stop, step)` on float arguments: the values
`start + i * step` for `0 ≤ i < ceil((stop - start) / step)`.
A zero step raises `ZeroDivisionError`, embedded as `none`. -/
def npArange (start stop step : ℚ) : Option (List ℚ) :=
  if step = 0 then none
  else some ((List.range (arangeLength start stop step)).map
    (fun i : ℕ => start + (i : ℚ) * step))

/-- The sign-corrected step `np.sign(VStop - VStart) * abs(VStep)` from
`Measurement.mfunction` in measurements/iv.py. -/
def ivStep (vstart vstop vstep : ℚ) : ℚ :=
  npSign (vstop - vstart) * |vstep|

/-- The IV sweep set-point list
`np.arange(VStart, VStop + step, step)` with the sign-corrected step,
from `Measurement.mfunction` in measurements/iv.py. -/
def ivSweepList (vstart vstop vstep : ℚ) : Option (List ℚ) :=
  npArange vstart (vstop + ivStep vstart vstop vstep) (ivStep vstart vstop vstep)

/-! ### GUI interface states (main.py, `_gui_state_busy` / `_gui_state_idle` /
`_gui_state_disconnected`) -/

/-- The GUI widgets touched by the three interface-state methods of
`KeithleyGuiApp`, plus the save action toggled by `_on_measure_done`. -/
structure GuiF where
  runEnabled : Bool
  abortEnabled : Bool
  connectEnabled : Bool
  disconnectEnabled : Bool
  statusMessage : String
  ledChecked : Bool
  saveEnabled : Bool

/-- `KeithleyGuiApp._gui_state_busy`. -/
def guiStateBusy (g : GuiF) : GuiF :=
  { g with runEnabled := false, abortEnabled := true, connectEnabled := false,
           disconnectEnabled := false, statusMessage := "    Measuring.",
           ledChecked := true }

/-- `KeithleyGuiApp._gui_state_idle`. -/
def guiStateIdle (g : GuiF) : GuiF :=
  { g with runEnabled := true, abortEnabled := false, connectEnabled := false,
           disconnectEnabled := true, statusMessage := "    Ready.",
           ledChecked := true }

/-- `KeithleyGuiApp._gui_state_disconnected`. -/
def guiStateDisconnected (g : GuiF) : GuiF :=
  { g with runEnabled := false, abortEnabled := false, connectEnabled := true,
           disconnectEnabled := false,
           statusMessage := "    No Keithley connected.", ledChecked := false }

/-- The driver flags the poller reads: `keithley.connected`, `keithley.busy`,
and whether reading `keithley.localnode.model` succeeds (its failure raises
`visa.VisaIOError`, `visa.InvalidSession` or `OSError`). -/
structure Keithley where
  connected : Bool
  busy : Bool
  modelQueryOk : Bool

/-- `keithley.disconnect()`, as far as the `connected` flag is concerned. -/
def keithleyDisconnect (k : Keithley) : Keithley :=
  { k with connected := false }

/-- The three GUI connection states. -/
inductive GuiMode where
  | busy
  | idle
  | disconnected
deriving DecidableEq

/-- Read the connection state back off the widget flags; the three
interface-state methods produce pairwise distinct configurations. -/
def classifyGui (g : GuiF) : Option GuiMode :=
  match g.runEnabled, g.abortEnabled, g.connectEnabled, g.disconnectEnabled,
      g.ledChecked with
  | false, true, false, false, true => some GuiMode.busy
  | true, false, false, true, true => some GuiMode.idle
  | false, false, true, false, false => some GuiMode.disconnected
  | _, _, _, _, _ => none

/-- `KeithleyGuiApp._update_gui_connection`, the poll body run on the
10-second timer: returns the driver state and GUI after one poll. -/
def updateGuiConnection (k : Keithley) (g : GuiF) : Keithley × GuiF :=
  if k.connected && !k.busy then
    if k.modelQueryOk then (k, guiStateIdle g)
    else (keithleyDisconnect k, guiStateDisconnected g)
  else if k.connected && k.busy then (k, guiStateBusy g)
  else if !k.connected then (k, guiStateDisconnected g)
  else (k, g)

/-! ### Measurement worker thread (main.py, `MeasureThread` and
`_on_measure_done`) -/

/-- Observable events of `MeasureThread.run`: the `startedSig` emission, the
call into the measurement function, and the `finishedSig` emission with its
payload. -/
inductive MEvent (α : Type) where
  | startedSig : MEvent α
  | mfunctionCall : MEvent α
  | finishedSig : α → MEvent α

/-- Whether an event is a `finishedSig` emission. -/
def isFinishedSig {α : Type} : MEvent α → Bool
  | MEvent.finishedSig _ => true
  | _ => false

/-- Whether an event is the call into the measurement function. -/
def isMfunctionCall {α : Type} : MEvent α → Bool
  | MEvent.mfunctionCall => true
  | _ => false

/-- `MeasureThread.run`:

    self.startedSig.emit()
    sweepData = self.mfunction(self.keithley, self.params)
    self.finishedSig.emit(sweepData)

as the trace of events it produces. -/
def measureThreadRun {κ π α : Type} (mfunction : κ → π → α) (keithley : κ)
    (params : π) : List (MEvent α) :=
  let sweepData := mfunction keithley params
  [MEvent.startedSig, MEvent.mfunctionCall, MEvent.finishedSig sweepData]

/-- `KeithleyGuiApp._on_measure_done`, restricted to the widget flags:
show the Ready message, `_gui_state_idle`, enable `actionSaveSweepData`. -/
def onMeasureDone (g : GuiF) : GuiF :=
  let g1 := { g with statusMessage := "    Ready." }
  let g2 := guiStateIdle g1
  { g2 with saveEnabled := true }

/-! ### Parameter dictionaries of the measurement tabs
(measurements/transfer.py, output.py, iv.py `_on_sweep_clicked`) -/

/-- A drain-voltage entry: a number or the special `'trailing'` token. -/
inductive VdEntry where
  | num : ℚ → VdEntry
  | trailing : VdEntry

/-- `_string_to_vd` (main.py) / `_string_to_Vd` (transfer.py):

    try:
        return float(string)
    except ValueError:
        if 'trailing' in string:
            return 'trailing'
        else:
            raise ValueError('Invalid drain voltage.')

`pf` stands for Python's `float` constructor, `none` meaning `ValueError`;
a raised error is `Except.error` with the message. -/
def stringToVd (pf : String → Option ℚ) (s : String) : Except String VdEntry :=
  match pf s with
  | some q => Except.ok (VdEntry.num q)
  | none =>
    if "trailing".data <:+: s.data then Except.ok VdEntry.trailing
    else Except.error ("Invalid drain voltage.")

/-- Values stored in the `params` dictionary handed to the worker thread. -/
inductive PVal where
  | num : ℚ → PVal
  | str : String → PVal
  | flag : Bool → PVal
  | numList : List ℚ → PVal
  | vdList : List VdEntry → PVal
  | smuRef : String → PVal

/-- The `params` dictionary, in insertion order. -/
abbrev Params := List (String × PVal)

/-- The transfer tab's spin-box and line-edit contents. -/
structure TransferTab where
  vgStart : ℚ
  vgStop : ℚ
  vgStep : ℚ
  vdListText : String

/-- transfer.py `Measurement._on_sweep_clicked`: builds the dict and
`return params`; a `ValueError` from `_string_to_Vd` propagates (`none`). -/
def transferOnSweepClicked (pf : String → Option ℚ) (t : TransferTab) :
    Option Params :=
  match (t.vdListText.splitOn ",").mapM (stringToVd pf) with
  | Except.error _ => none
  | Except.ok vds =>
    some [("Measurement", PVal.str ("transfer")),
          ("VgStart", PVal.num t.vgStart),
          ("VgStop", PVal.num t.vgStop),
          ("VgStep", PVal.num t.vgStep),
          ("VdList", PVal.vdList vds)]

/-- The output tab's spin-box and line-edit contents. -/
structure OutputTab where
  vdStart : ℚ
  vdStop : ℚ
  vdStep : ℚ
  vgListText : String

/-- output.py `Measurement._on_sweep_clicked`: builds the dict but the
function body ends without a `return` statement, so Python returns `None`
(`none`); a `ValueError` from `float(x)` also yields `none`. -/
def outputOnSweepClicked (pf : String → Option ℚ) (t : OutputTab) :
    Option Params :=
  match (t.vgListText.splitOn ",").mapM pf with
  | none => none
  | some vgs =>
    let _params : Params :=
      [("Measurement", PVal.str ("output")),
       ("VdStart", PVal.num t.vdStart),
       ("VdStop", PVal.num t.vdStop),
       ("VdStep", PVal.num t.vdStep),
       ("VgList", PVal.numList vgs)]
    none

/-- The IV tab's spin-box and combo-box contents. -/
structure IVTab where
  vStart : ℚ
  vStop : ℚ
  vStep : ℚ
  smuSweepName : String

/-- iv.py `Measurement._on_sweep_clicked`: builds the dict and
`return params`; nothing in it can raise. -/
def ivOnSweepClicked (t : IVTab) : Option Params :=
  some [("Measurement", PVal.str ("iv")),
        ("VStart", PVal.num t.vStart),
        ("VStop", PVal.num t.vStop),
        ("VStep", PVal.num t.vStep),
        ("smu_sweep", PVal.str t.smuSweepName)]

/-! ### The Run-button handler (main.py, `KeithleyGuiApp._on_sweep_clicked`) -/

/-- The acquisition settings the main window reads from its own widgets and
the driver inside `_on_sweep_clicked`. -/
structure AcqSettings where
  tInt : ℚ
  delay : ℚ
  smuGateName : String
  smuDrainName : String
  pulsedIndex : ℕ
  linefreq : ℚ

/-- The main window's extension of the tab's dict:

    params['tInt'] = ...; params['delay'] = ...
    params['smu_gate'] = ...; params['smu_drain'] = ...
    params['pulsed'] = bool(self.comboBoxSweepType.currentIndex())
-/
def extendParams (p : Params) (a : AcqSettings) : Params :=
  p ++ [("tInt", PVal.num a.tInt),
        ("delay", PVal.num a.delay),
        ("smu_gate", PVal.smuRef a.smuGateName),
        ("smu_drain", PVal.smuRef a.smuDrainName),
        ("pulsed", PVal.flag (a.pulsedIndex != 0))]

/-- How one click of Run can end. -/
inductive SweepOutcome where
  | busyDialog : SweepOutcome
  | paramsTypeError : SweepOutcome
  | tIntDialog : SweepOutcome
  | threadStarted : Params → SweepOutcome

/-- `KeithleyGuiApp._on_sweep_clicked`: the busy guard and early return,
`apply_smu_settings`, the tab's dict (a `None` makes the
`params['tInt'] = ...` subscript raise `TypeError`), the extension with
acquisition settings, the integration-time guard, and thread creation.
Returns the outcome and whether `apply_smu_settings` ran. -/
def onSweepClicked (busy : Bool) (tabResult : Option Params)
    (a : AcqSettings) : SweepOutcome × Bool :=
  if busy then (SweepOutcome.busyDialog, false)
  else
    match tabResult with
    | none => (SweepOutcome.paramsTypeError, true)
    | some p =>
      let p := extendParams p a
      if a.tInt > 25 / a.linefreq ∨ a.tInt < 1/1000 / a.linefreq then
        (SweepOutcome.tIntDialog, true)
      else (SweepOutcome.threadStarted p, true)

/-! ### SMU combo-box exclusion (main.py, `_on_smu_gate_changed` /
`_on_smu_drain_changed`) -/

/-- The current indices of `comboBoxGateSMU` and `comboBoxDrainSMU`. -/
structure SmuSelection where
  gateIndex : ℕ
  drainIndex : ℕ

/-- A programmatic or user `setCurrentIndex` on one of the two combos. -/
inductive SmuAction where
  | setGate : ℕ → SmuAction
  | setDrain : ℕ → SmuAction

/-- Qt semantics of `setCurrentIndex` plus the two slots
`_on_smu_gate_changed` / `_on_smu_drain_changed`: the signal
`currentIndexChanged` fires only when the index actually changes, and the
slot then calls `setCurrentIndex` on the other combo when there are fewer
than three SMUs.  `fuel` bounds the signal cascade (depth 2 suffices). -/
def runSmuAction : ℕ → ℕ → SmuAction → SmuSelection → SmuSelection
  | 0, _, _, s => s
  | fuel + 1, nSmu, SmuAction.setGate i, s =>
    if s.gateIndex = i then s
    else
      let s1 := { s with gateIndex := i }
      if i = 0 ∧ nSmu < 3 then runSmuAction fuel nSmu (SmuAction.setDrain 1) s1
      else if i = 1 ∧ nSmu < 3 then
        runSmuAction fuel nSmu (SmuAction.setDrain 0) s1
      else s1
  | fuel + 1, nSmu, SmuAction.setDrain i, s =>
    if s.drainIndex = i then s
    else
      let s1 := { s with drainIndex := i }
      if i = 0 ∧ nSmu < 3 then runSmuAction fuel nSmu (SmuAction.setGate 1) s1
      else if i = 1 ∧ nSmu < 3 then
        runSmuAction fuel nSmu (SmuAction.setGate 0) s1
      else s1

/-! ## Supporting lemmas -/

theorem mem_npArange {start stop step : ℚ} (h : step ≠ 0) {l : List ℚ}
    (hl : npArange start stop step = some l) {v : ℚ} (hv : v ∈ l) :
    ∃ i : ℕ, ((i : ℚ)) < (stop - start) / step ∧ v = start + (i : ℚ) * step := by
  rw [npArange, if_neg h] at hl
  obtain rfl := Option.some.inj hl.symm
  obtain ⟨i, hi, rfl⟩ := List.mem_map.1 hv
  rw [List.mem_range, arangeLength] at hi
  refine ⟨i, ?_, rfl⟩
  have h1 : (i : ℤ) < ⌈(stop - start) / step⌉ := Int.lt_toNat.1 hi
  exact_mod_cast Int.lt_ceil.1 h1

theorem npArange_head {start stop step : ℚ} (h : step ≠ 0)
    (hpos : 0 < (stop - start) / step) :
    ∃ l, npArange start stop step = some l ∧ l.head? = some start := by
  rw [npArange, if_neg h]
  have hn : 0 < arangeLength start stop step := by
    rw [arangeLength]
    have : (0 : ℤ) < ⌈(stop - start) / step⌉ := Int.ceil_pos.2 hpos
    omega
  obtain ⟨m, hm⟩ := Nat.exists_eq_succ_of_ne_zero (Nat.pos_iff_ne_zero.1 hn)
  refine ⟨_, rfl, ?_⟩
  rw [hm, List.range_succ_eq_map]
  simp

theorem npArange_chain_lt {start stop step : ℚ} (h : 0 < step) {l : List ℚ}
    (hl : npArange start stop step = some l) :
    l.Chain' (· < ·) := by
  rw [npArange, if_neg (ne_of_gt h)] at hl
  obtain rfl := Option.some.inj hl.symm
  rw [List.chain'_map]
  cases hn : arangeLength start stop step with
  | zero => simp
  | succ m =>
    rw [List.chain'_range_succ]
    intro j _
    push_cast
    nlinarith

theorem npArange_chain_gt {start stop step : ℚ} (h : step < 0) {l : List ℚ}
    (hl : npArange start stop step = some l) :
    l.Chain' (· > ·) := by
  rw [npArange, if_neg (ne_of_lt h)] at hl
  obtain rfl := Option.some.inj hl.symm
  rw [List.chain'_map]
  cases hn : arangeLength start stop step with
  | zero => simp
  | succ m =>
    rw [List.chain'_range_succ]
    intro j _
    push_cast
    nlinarith

theorem ivStep_of_lt {a b : ℚ} (s : ℚ) (h : a < b) : ivStep a b s = |s| := by
  rw [ivStep, npSign, if_pos (by linarith : (0 : ℚ) < b - a), one_mul]

theorem ivStep_of_gt {a b : ℚ} (s : ℚ) (h : b < a) : ivStep a b s = -|s| := by
  rw [ivStep, npSign, if_neg (by linarith : ¬ (0 : ℚ) < b - a),
    if_pos (by linarith : b - a < 0), neg_one_mul]

theorem ivStep_eq_zero_iff (a b s : ℚ) : ivStep a b s = 0 ↔ (a = b ∨ s = 0) := by
  rw [ivStep, npSign]
  rcases lt_trichotomy a b with h | h | h
  · rw [if_pos (by linarith : (0 : ℚ) < b - a), one_mul]
    simp [abs_eq_zero, h.ne]
  · simp [h]
  · rw [if_neg (by linarith : ¬ (0 : ℚ) < b - a), if_pos (by linarith : b - a < 0)]
    simp [abs_eq_zero, h.ne']

theorem ivSweepList_exists_of_ne (a b s : ℚ) (hab : a ≠ b) (hs : s ≠ 0) :
    ∃ l, ivSweepList a b s = some l := by
  rcases lt_or_gt_of_ne hab with h | h
  · have hpos : 0 < ivStep a b s := (ivStep_of_lt s h) ▸ abs_pos.2 hs
    have hx : 0 < ((b + ivStep a b s) - a) / ivStep a b s :=
      div_pos (by linarith) hpos
    obtain ⟨l, hl, -⟩ := npArange_head (ne_of_gt hpos) hx
    exact ⟨l, hl⟩
  · have hneg : ivStep a b s < 0 := by
      rw [ivStep_of_gt s h]
      exact neg_lt_zero.2 (abs_pos.2 hs)
    have hx : 0 < ((b + ivStep a b s) - a) / ivStep a b s :=
      div_pos_of_neg_of_neg (by linarith) hneg
    obtain ⟨l, hl, -⟩ := npArange_head (ne_of_lt hneg) hx
    exact ⟨l, hl⟩

theorem onSweepClicked_false_some (p : Params) (a : AcqSettings) :
    onSweepClicked false (some p) a =
      if a.tInt > 25 / a.linefreq ∨ a.tInt < 1/1000 / a.linefreq then
        (SweepOutcome.tIntDialog, true)
      else (SweepOutcome.threadStarted (extendParams p a), true) := rfl

/-! ## Claims -/

/-- Claim C1: for every IV sweep request with `VStart ≠ VStop` and
`VStep ≠ 0`, the sweep-parameter builder uses the step
`sign(VStop - VStart) * abs(VStep)`, so the produced set-point list starts
at `VStart`, is strictly increasing when `VStop > VStart`, strictly
decreasing when `VStop < VStart`, and does not depend on the sign the user
entered for `VStep`. -/
theorem iv_sweep_sign_corrected_monotone (a b s : ℚ) (hab : a ≠ b)
    (hs : s ≠ 0) :
    ∃ l, ivSweepList a b s = some l ∧ l.head? = some a ∧
      (a < b → l.Chain' (· < ·)) ∧ (b < a → l.Chain' (· > ·)) ∧
      ivSweepList a b s = ivSweepList a b (-s) := by
  have hinv : ivSweepList a b s = ivSweepList a b (-s) := by
    simp [ivSweepList, ivStep, abs_neg]
  rcases lt_or_gt_of_ne hab with h | h
  · have hstep : ivStep a b s = |s| := ivStep_of_lt s h
    have hpos : 0 < ivStep a b s := hstep ▸ abs_pos.2 hs
    have hx : 0 < ((b + ivStep a b s) - a) / ivStep a b s :=
      div_pos (by linarith) hpos
    obtain ⟨l, hl, hhead⟩ := npArange_head (ne_of_gt hpos) hx
    exact ⟨l, hl, hhead, fun _ => npArange_chain_lt hpos hl,
      fun hba => absurd hba (not_lt.2 h.le), hinv⟩
  · have hstep : ivStep a b s = -|s| := ivStep_of_gt s h
    have hneg : ivStep a b s < 0 := by
      rw [hstep]
      exact neg_lt_zero.2 (abs_pos.2 hs)
    have hx : 0 < ((b + ivStep a b s) - a) / ivStep a b s :=
      div_pos_of_neg_of_neg (by linarith) hneg
    obtain ⟨l, hl, hhead⟩ := npArange_head (ne_of_lt hneg) hx
    exact ⟨l, hl, hhead, fun hba => absurd hba (not_lt.2 h.le),
      fun _ => npArange_chain_gt hneg hl, hinv⟩

/-- Witness for C1 at `VStart = 0`, `VStop = 1`, `VStep = 1/2`. -/
theorem iv_sweep_sign_corrected_monotone_witness :
    (0 : ℚ) ≠ 1 ∧ (1/2 : ℚ) ≠ 0 ∧
    (∃ l, ivSweepList 0 1 (1/2) = some l ∧ l.head? = some 0 ∧
      ((0 : ℚ) < 1 → l.Chain' (· < ·)) ∧ ((1 : ℚ) < 0 → l.Chain' (· > ·)) ∧
      ivSweepList 0 1 (1/2) = ivSweepList 0 1 (-(1/2))) :=
  ⟨by norm_num, by norm_num,
    iv_sweep_sign_corrected_monotone 0 1 (1/2) (by norm_num) (by norm_num)⟩

/-- Claim C2: one poll of `_update_gui_connection` ends in exactly one of the
three GUI states, determined by the driver flags: busy when connected and
busy; idle when connected, not busy, and the model query succeeds;
disconnected when not connected, or when the model query raises, in which
case the driver is also disconnected. -/
theorem connection_poller_three_states (k : Keithley) (g : GuiF) :
    (k.connected = true → k.busy = true →
      classifyGui (updateGuiConnection k g).2 = some GuiMode.busy ∧
      (updateGuiConnection k g).1 = k) ∧
    (k.connected = true → k.busy = false → k.modelQueryOk = true →
      classifyGui (updateGuiConnection k g).2 = some GuiMode.idle ∧
      (updateGuiConnection k g).1 = k) ∧
    (k.connected = true → k.busy = false → k.modelQueryOk = false →
      classifyGui (updateGuiConnection k g).2 = some GuiMode.disconnected ∧
      (updateGuiConnection k g).1.connected = false) ∧
    (k.connected = false →
      classifyGui (updateGuiConnection k g).2 = some GuiMode.disconnected ∧
      (updateGuiConnection k g).1 = k) := by
  obtain ⟨c, b, m⟩ := k
  cases c <;> cases b <;> cases m <;>
    simp [updateGuiConnection, classifyGui, guiStateBusy, guiStateIdle,
      guiStateDisconnected, keithleyDisconnect]

/-- Witness for C2: a connected, busy driver polls to the busy state. -/
theorem connection_poller_three_states_witness :
    classifyGui (updateGuiConnection ⟨true, true, true⟩
      ⟨false, false, false, false, "", false, false⟩).2 = some GuiMode.busy ∧
    (updateGuiConnection ⟨true, true, true⟩
      ⟨false, false, false, false, "", false, false⟩).1 = ⟨true, true, true⟩ :=
  (connection_poller_three_states ⟨true, true, true⟩
    ⟨false, false, false, false, "", false, false⟩).1 rfl rfl

/-- Claim C3: `MeasureThread.run` emits `startedSig` first, calls the
measurement function exactly once, then emits `finishedSig` exactly once
carrying exactly the object the measurement function returned; on that
signal `_on_measure_done` puts the GUI in the idle state and enables the
save action. -/
theorem measure_thread_one_shot {κ π α : Type} (mf : κ → π → α) (k : κ)
    (p : π) (g : GuiF) :
    measureThreadRun mf k p =
      [MEvent.startedSig, MEvent.mfunctionCall, MEvent.finishedSig (mf k p)] ∧
    (measureThreadRun mf k p).head? = some MEvent.startedSig ∧
    ((measureThreadRun mf k p).countP (fun e => isMfunctionCall e)) = 1 ∧
    ((measureThreadRun mf k p).countP (fun e => isFinishedSig e)) = 1 ∧
    (∀ r, MEvent.finishedSig r ∈ measureThreadRun mf k p → r = mf k p) ∧
    classifyGui (onMeasureDone g) = some GuiMode.idle ∧
    (onMeasureDone g).saveEnabled = true := by
  refine ⟨rfl, rfl, rfl, rfl, ?_, ?_, rfl⟩
  · intro r hr
    simp [measureThreadRun] at hr
    exact hr
  · simp [onMeasureDone, guiStateIdle, classifyGui]

/-- Witness for C3 on a toy measurement function returning `7`. -/
theorem measure_thread_one_shot_witness :
    measureThreadRun (fun _ _ : Unit => (7 : ℕ)) () () =
      [MEvent.startedSig, MEvent.mfunctionCall, MEvent.finishedSig 7] ∧
    (∀ r, MEvent.finishedSig r ∈
      measureThreadRun (fun _ _ : Unit => (7 : ℕ)) () () → r = 7) :=
  ⟨(measure_thread_one_shot (fun _ _ : Unit => (7 : ℕ)) () ()
      ⟨false, false, false, false, "", false, false⟩).1,
   (measure_thread_one_shot (fun _ _ : Unit => (7 : ℕ)) () ()
      ⟨false, false, false, false, "", false, false⟩).2.2.2.2.1⟩

/-- Claim C4 (code bug): the output tab's `_on_sweep_clicked` builds its
parameter dictionary but has no `return` statement, so it hands `None` to
the main window instead of the dictionary — unlike the IV tab (and the
transfer tab), which return theirs — and the main window's
`params['tInt'] = ...` then raises `TypeError`, so no extended dictionary
reaches the worker thread.  The last conjunct shows the intended path on a
tab that does return its dictionary. -/
theorem output_tab_returns_none :
    outputOnSweepClicked (fun _ => some 0) ⟨0, 1, 1/10, "0"⟩ = none ∧
    ivOnSweepClicked ⟨0, 1, 1/10, "smua"⟩ =
      some [("Measurement", PVal.str ("iv")), ("VStart", PVal.num 0),
            ("VStop", PVal.num 1), ("VStep", PVal.num (1/10)),
            ("smu_sweep", PVal.str ("smua"))] ∧
    onSweepClicked false none ⟨1, 0, "smua", "smub", 0, 50⟩ =
      (SweepOutcome.paramsTypeError, true) ∧
    onSweepClicked false (some [("Measurement", PVal.str ("iv"))])
        ⟨1/100, 0, "smua", "smub", 0, 50⟩ =
      (SweepOutcome.threadStarted
        (extendParams [("Measurement", PVal.str ("iv"))]
          ⟨1/100, 0, "smua", "smub", 0, 50⟩), true) := by
  refine ⟨?_, rfl, rfl, ?_⟩
  · unfold outputOnSweepClicked
    cases ("0".splitOn ",").mapM (fun _ => some (0 : ℚ)) <;> rfl
  · norm_num [onSweepClicked]

/-- Claim C5, amended: every set-point lies between `VStart` (inclusive) and
`VStop + step` (exclusive), so a set-point may pass the requested stop value
by strictly less than `|VStep|`, but no further. -/
theorem iv_sweep_points_within_one_step (a b s : ℚ) (hab : a ≠ b)
    (hs : s ≠ 0) :
    ∀ l, ivSweepList a b s = some l → ∀ v ∈ l,
      (a < b → a ≤ v ∧ v < b + |s|) ∧ (b < a → b - |s| < v ∧ v ≤ a) := by
  intro l hl v hv
  rcases lt_or_gt_of_ne hab with h | h
  · have hstep : ivStep a b s = |s| := ivStep_of_lt s h
    have hpos : 0 < ivStep a b s := hstep ▸ abs_pos.2 hs
    obtain ⟨i, hix, rfl⟩ := mem_npArange (ne_of_gt hpos) hl hv
    have hxm : ((b + ivStep a b s) - a) / ivStep a b s * ivStep a b s
        = (b + ivStep a b s) - a := div_mul_cancel₀ _ (ne_of_gt hpos)
    have h2 : (i : ℚ) * ivStep a b s
        < ((b + ivStep a b s) - a) / ivStep a b s * ivStep a b s :=
      mul_lt_mul_of_pos_right hix hpos
    have h3 : 0 ≤ (i : ℚ) * ivStep a b s :=
      mul_nonneg (Nat.cast_nonneg i) hpos.le
    constructor
    · intro _
      constructor
      · linarith
      · rw [← hstep]
        linarith [hxm ▸ h2]
    · intro hba
      exact absurd hba (not_lt.2 h.le)
  · have hstep : ivStep a b s = -|s| := ivStep_of_gt s h
    have hneg : ivStep a b s < 0 := by
      rw [hstep]
      exact neg_lt_zero.2 (abs_pos.2 hs)
    obtain ⟨i, hix, rfl⟩ := mem_npArange (ne_of_lt hneg) hl hv
    have hxm : ((b + ivStep a b s) - a) / ivStep a b s * ivStep a b s
        = (b + ivStep a b s) - a := div_mul_cancel₀ _ (ne_of_lt hneg)
    have h2 : ((b + ivStep a b s) - a) / ivStep a b s * ivStep a b s
        < (i : ℚ) * ivStep a b s :=
      mul_lt_mul_of_neg_right hix hneg
    have h3 : (i : ℚ) * ivStep a b s ≤ 0 :=
      mul_nonpos_of_nonneg_of_nonpos (Nat.cast_nonneg i) hneg.le
    constructor
    · intro hab2
      exact absurd hab2 (not_lt.2 h.le)
    · intro _
      constructor
      · have hb : b - |s| = b + ivStep a b s := by
          rw [hstep]
          ring
        rw [hb]
        linarith [hxm ▸ h2]
      · linarith

/-- Witness for the amended C5 at `VStart = 0`, `VStop = 1`, `VStep = 1/2`. -/
theorem iv_sweep_points_within_one_step_witness :
    (0 : ℚ) ≠ 1 ∧ (1/2 : ℚ) ≠ 0 ∧
    (∀ l, ivSweepList 0 1 (1/2) = some l → ∀ v ∈ l,
      ((0 : ℚ) < 1 → (0 : ℚ) ≤ v ∧ v < 1 + |(1/2 : ℚ)|) ∧
      ((1 : ℚ) < 0 → (1 : ℚ) - |(1/2 : ℚ)| < v ∧ v ≤ 0)) :=
  ⟨by norm_num, by norm_num,
    iv_sweep_points_within_one_step 0 1 (1/2) (by norm_num) (by norm_num)⟩

/-- Counterexample to C5 as stated: with `VStart = 0`, `VStop = 1`,
`VStep = 2/5` the builder produces `[0, 2/5, 4/5, 6/5]`, whose last
set-point `6/5` lies beyond the requested stop value `1`. -/
theorem iv_sweep_point_beyond_stop :
    ivSweepList 0 1 (2/5) = some [0, 2/5, 4/5, 6/5] ∧
    ¬ (∀ v ∈ [(0 : ℚ), 2/5, 4/5, 6/5], 0 ≤ v ∧ v ≤ 1) := by
  constructor
  · have habs : |(2 : ℚ)/5| = 2/5 := abs_of_pos (by norm_num)
    have hstep : ivStep 0 1 (2/5) = 2/5 := by
      rw [ivStep_of_lt _ (by norm_num : (0 : ℚ) < 1), habs]
    rw [ivSweepList, hstep]
    have hdiv : ((1 : ℚ) + 2/5 - 0) / (2/5) = 7/2 := by norm_num
    have hc : ⌈(7 : ℚ)/2⌉ = 4 := by norm_num [Int.ceil_eq_iff]
    have hlen : arangeLength 0 (1 + 2/5) (2/5) = 4 := by
      rw [arangeLength, hdiv, hc]
      rfl
    rw [npArange, if_neg (by norm_num : ¬ (2 : ℚ)/5 = 0), hlen]
    norm_num [List.range_succ]
  · intro hfa
    have h65 := (hfa (6/5) (by simp)).2
    norm_num at h65

/-- Claim C6, amended: the sweep builder produces a list exactly when the
sign-corrected step is nonzero, i.e. when `VStart ≠ VStop` and `VStep ≠ 0`;
when `VStop = VStart` or `VStep = 0`, the step is zero and `np.arange`
raises `ZeroDivisionError` instead of producing a list. -/
theorem iv_sweep_list_iff_nonzero_step (a b s : ℚ) :
    (∃ l, ivSweepList a b s = some l) ↔ (a ≠ b ∧ s ≠ 0) := by
  constructor
  · rintro ⟨l, hl⟩
    by_contra hcon
    have hstep : ivStep a b s = 0 := by
      rcases not_and_or.1 hcon with h | h
      · exact (ivStep_eq_zero_iff a b s).2 (Or.inl (not_ne_iff.1 h))
      · exact (ivStep_eq_zero_iff a b s).2 (Or.inr (not_ne_iff.1 h))
    rw [ivSweepList, hstep, npArange, if_pos rfl] at hl
    exact Option.noConfusion hl
  · rintro ⟨hab, hs⟩
    exact ivSweepList_exists_of_ne a b s hab hs

/-- Witness for the amended C6: a nonzero sign-corrected step produces a
list. -/
theorem iv_sweep_list_iff_nonzero_step_witness :
    ∃ l, ivSweepList 0 1 1 = some l :=
  (iv_sweep_list_iff_nonzero_step 0 1 1).2 ⟨by norm_num, by norm_num⟩

/-- Counterexample to C6 as stated: with `VStart = VStop = 0` (and
`VStep = 1`) the sign-corrected step is zero and the builder produces no
list — `np.arange` raises `ZeroDivisionError` — rather than being total. -/
theorem iv_sweep_zero_step_gives_no_list : ivSweepList 0 0 1 = none := by
  simp [ivSweepList, ivStep, npSign, npArange]

/-- Claim C7: Run starts the worker thread only if the Keithley is not busy
and `0.001/linefreq ≤ tInt ≤ 25/linefreq`; when busy, an informational
dialog is shown and the handler returns before `apply_smu_settings`; when
`tInt` is out of range, an informational dialog is shown and no thread is
created. -/
theorem run_button_guards (busy : Bool) (tabResult : Option Params)
    (a : AcqSettings) :
    ((∃ p, (onSweepClicked busy tabResult a).1 = SweepOutcome.threadStarted p) →
      busy = false ∧ 1/1000 / a.linefreq ≤ a.tInt ∧ a.tInt ≤ 25 / a.linefreq) ∧
    (busy = true → onSweepClicked busy tabResult a =
      (SweepOutcome.busyDialog, false)) ∧
    (busy = false → tabResult = none → onSweepClicked busy tabResult a =
      (SweepOutcome.paramsTypeError, true)) ∧
    (busy = false → ∀ p, tabResult = some p →
      (a.tInt > 25 / a.linefreq ∨ a.tInt < 1/1000 / a.linefreq) →
      onSweepClicked busy tabResult a = (SweepOutcome.tIntDialog, true)) ∧
    (busy = false → ∀ p, tabResult = some p →
      ¬ (a.tInt > 25 / a.linefreq ∨ a.tInt < 1/1000 / a.linefreq) →
      onSweepClicked busy tabResult a =
        (SweepOutcome.threadStarted (extendParams p a), true)) := by
  cases busy with
  | true =>
    refine ⟨?_, fun _ => rfl, ?_, ?_, ?_⟩
    · rintro ⟨p, hp⟩
      exact absurd hp (by simp [onSweepClicked])
    · intro h
      exact Bool.noConfusion h
    · intro h
      exact Bool.noConfusion h
    · intro h
      exact Bool.noConfusion h
  | false =>
    cases tabResult with
    | none =>
      refine ⟨?_, ?_, fun _ _ => rfl, ?_, ?_⟩
      · rintro ⟨p, hp⟩
        exact absurd hp (by simp [onSweepClicked])
      · intro h
        exact Bool.noConfusion h
      · intro _ p hp
        exact Option.noConfusion hp
      · intro _ p hp
        exact Option.noConfusion hp
    | some p =>
      by_cases hr : a.tInt > 25 / a.linefreq ∨ a.tInt < 1/1000 / a.linefreq
      · refine ⟨?_, ?_, ?_, ?_, ?_⟩
        · rintro ⟨q, hq⟩
          rw [onSweepClicked_false_some, if_pos hr] at hq
          exact absurd hq (by simp)
        · intro h
          exact Bool.noConfusion h
        · intro _ h
          exact Option.noConfusion h
        · intro _ q hq _
          rw [onSweepClicked_false_some, if_pos hr]
        · intro _ q hq hn
          exact absurd hr hn
      · refine ⟨?_, ?_, ?_, ?_, ?_⟩
        · intro _
          push_neg at hr
          exact ⟨rfl, hr.2, hr.1⟩
        · intro h
          exact Bool.noConfusion h
        · intro _ h
          exact Option.noConfusion h
        · intro _ q hq hc
          exact absurd hc hr
        · intro _ q hq _
          obtain rfl := Option.some.inj hq
          rw [onSweepClicked_false_some, if_neg hr]

/-- Witness for C7: a busy driver makes Run show the dialog and return
before SMU settings are applied. -/
theorem run_button_guards_witness :
    onSweepClicked true none ⟨1, 0, "smua", "smub", 0, 50⟩ =
      (SweepOutcome.busyDialog, false) :=
  (run_button_guards true none ⟨1, 0, "smua", "smub", 0, 50⟩).2.1 rfl

/-- Claim C8: with fewer than three SMUs, whenever the user changes the gate
or drain combo box to index 0 or 1, the change handlers leave the two combo
boxes on different indices. -/
theorem smu_combo_exclusion (nSmu i fuel : ℕ) (s : SmuSelection)
    (hn : nSmu < 3) (hi : i = 0 ∨ i = 1) (hfuel : 2 ≤ fuel) :
    (s.gateIndex ≠ i →
      (runSmuAction fuel nSmu (SmuAction.setGate i) s).gateIndex ≠
      (runSmuAction fuel nSmu (SmuAction.setGate i) s).drainIndex) ∧
    (s.drainIndex ≠ i →
      (runSmuAction fuel nSmu (SmuAction.setDrain i) s).gateIndex ≠
      (runSmuAction fuel nSmu (SmuAction.setDrain i) s).drainIndex) := by
  obtain ⟨f, rfl⟩ : ∃ f, fuel = f + 2 := ⟨fuel - 2, by omega⟩
  constructor
  · intro hg
    rcases hi with rfl | rfl
    · rw [runSmuAction, if_neg hg, if_pos ⟨rfl, hn⟩, runSmuAction]
      by_cases hd : s.drainIndex = 1
      · rw [if_pos hd]
        simp [hd]
      · rw [if_neg hd, if_neg (by simp), if_pos ⟨rfl, hn⟩]
        cases f with
        | zero =>
          rw [runSmuAction]
          simp
        | succ f2 =>
          rw [runSmuAction, if_pos rfl]
          simp
    · rw [runSmuAction, if_neg hg, if_neg (by simp), if_pos ⟨rfl, hn⟩,
        runSmuAction]
      by_cases hd : s.drainIndex = 0
      · rw [if_pos hd]
        simp [hd]
      · rw [if_neg hd, if_pos ⟨rfl, hn⟩]
        cases f with
        | zero =>
          rw [runSmuAction]
          simp
        | succ f2 =>
          rw [runSmuAction, if_pos rfl]
          simp
  · intro hd
    rcases hi with rfl | rfl
    · rw [runSmuAction, if_neg hd, if_pos ⟨rfl, hn⟩, runSmuAction]
      by_cases hg : s.gateIndex = 1
      · rw [if_pos hg]
        simp [hg]
      · rw [if_neg hg, if_neg (by simp), if_pos ⟨rfl, hn⟩]
        cases f with
        | zero =>
          rw [runSmuAction]
          simp
        | succ f2 =>
          rw [runSmuAction, if_pos rfl]
          simp
    · rw [runSmuAction, if_neg hd, if_neg (by simp), if_pos ⟨rfl, hn⟩,
        runSmuAction]
      by_cases hg : s.gateIndex = 0
      · rw [if_pos hg]
        simp [hg]
      · rw [if_neg hg, if_pos ⟨rfl, hn⟩]
        cases f with
        | zero =>
          rw [runSmuAction]
          simp
        | succ f2 =>
          rw [runSmuAction, if_pos rfl]
          simp

/-- Witness for C8: two SMUs, gate changed from 1 to 0, indices end up
distinct. -/
theorem smu_combo_exclusion_witness :
    (runSmuAction 4 2 (SmuAction.setGate 0) ⟨1, 0⟩).gateIndex ≠
    (runSmuAction 4 2 (SmuAction.setGate 0) ⟨1, 0⟩).drainIndex :=
  (smu_combo_exclusion 2 0 4 ⟨1, 0⟩ (by omega) (Or.inl rfl) (by omega)).1
    (by decide)

/-- Claim C9: for every input string, `_string_to_vd` returns the parsed
float when `float()` succeeds; otherwise returns `'trailing'` when that
substring occurs in the input; otherwise raises
`ValueError('Invalid drain voltage.')` — exhaustively and mutually
exclusively (the converses pin each outcome to its condition). -/
theorem string_to_vd_trichotomy (pf : String → Option ℚ) (s : String) :
    ((∃ q, pf s = some q ∧ stringToVd pf s = Except.ok (VdEntry.num q)) ∨
     (pf s = none ∧ "trailing".data <:+: s.data ∧
       stringToVd pf s = Except.ok VdEntry.trailing) ∨
     (pf s = none ∧ ¬ "trailing".data <:+: s.data ∧
       stringToVd pf s = Except.error ("Invalid drain voltage."))) ∧
    (∀ q, stringToVd pf s = Except.ok (VdEntry.num q) → pf s = some q) ∧
    (stringToVd pf s = Except.ok VdEntry.trailing →
      pf s = none ∧ "trailing".data <:+: s.data) ∧
    (∀ msg, stringToVd pf s = Except.error msg →
      pf s = none ∧ ¬ "trailing".data <:+: s.data ∧
      msg = "Invalid drain voltage.") := by
  cases hpf : pf s with
  | some q =>
    refine ⟨Or.inl ⟨q, rfl, by rw [stringToVd, hpf]⟩, ?_, ?_, ?_⟩
    · intro q2 hq2
      rw [stringToVd, hpf] at hq2
      obtain rfl := VdEntry.num.inj (Except.ok.inj hq2)
      rfl
    · intro h
      rw [stringToVd, hpf] at h
      exact VdEntry.noConfusion (Except.ok.inj h)
    · intro msg h
      rw [stringToVd, hpf] at h
      exact Except.noConfusion h
  | none =>
    by_cases hin : "trailing".data <:+: s.data
    · refine ⟨Or.inr (Or.inl ⟨rfl, hin, by rw [stringToVd, hpf, if_pos hin]⟩),
        ?_, fun _ => ⟨rfl, hin⟩, ?_⟩
      · intro q hq
        rw [stringToVd, hpf, if_pos hin] at hq
        exact VdEntry.noConfusion (Except.ok.inj hq)
      · intro msg h
        rw [stringToVd, hpf, if_pos hin] at h
        exact Except.noConfusion h
    · refine ⟨Or.inr (Or.inr ⟨rfl, hin, by rw [stringToVd, hpf, if_neg hin]⟩),
        ?_, ?_, ?_⟩
      · intro q hq
        rw [stringToVd, hpf, if_neg hin] at hq
        exact Except.noConfusion hq
      · intro h
        rw [stringToVd, hpf, if_neg hin] at h
        exact Except.noConfusion h
      · intro msg h
        rw [stringToVd, hpf, if_neg hin] at h
        exact ⟨rfl, hin, (Except.error.inj h).symm⟩

/-- Witness for C9: a string that neither parses nor contains `'trailing'`
raises the `ValueError`. -/
theorem string_to_vd_trichotomy_witness :
    stringToVd (fun _ => none) "xyz" =
      Except.error ("Invalid drain voltage.") := by
  have h := (string_to_vd_trichotomy (fun _ => none) "xyz").1
  rcases h with ⟨q, hq, -⟩ | ⟨-, hin, -⟩ | ⟨-, -, h3⟩
  · exact Option.noConfusion hq
  · exact absurd hin.length_le (by decide)
  · exact h3

end Keithleygui
